import Mathlib

/-
  Verification of the control plane of the xx network registration
  ("permissioning") server, against its specification.

  The Go sources are shallowly embedded: pure functions become Lean
  functions, stateful handlers become explicit state-passing functions,
  machine integers become Nat/Int, fallible code returns Except/Option,
  and Go strings are modelled as List Char where proofs must evaluate
  them.  External collaborators (database, RNG, wall clock, network
  probes) are passed in as explicit parameters (oracles).
-/

set_option autoImplicit false

/-- Node activity, as reported by a mix node
(gitlab.com/elixxir/primitives/current): NOT_STARTED, WAITING,
PRECOMPUTING, STANDBY, REALTIME, COMPLETED, ERROR, CRASH. -/
inductive Activity where
  | notStarted
  | waiting
  | precomputing
  | standby
  | realtime
  | completed
  | error
  | crash
deriving DecidableEq, Repr, Fintype

/-- Round lifecycle phase (gitlab.com/elixxir/primitives/states):
PENDING, PRECOMPUTING, STANDBY, QUEUED, REALTIME, COMPLETED, FAILED. -/
inductive RoundPhase where
  | pending
  | precomputing
  | standby
  | queued
  | realtime
  | completed
  | failed
deriving DecidableEq, Repr, Fintype

/-- Numeric value of a round phase, matching the Go states.Round
constants (PENDING = 0 .. FAILED = 6). -/
def phaseIdx : RoundPhase → Nat
  | .pending => 0
  | .precomputing => 1
  | .standby => 2
  | .queued => 3
  | .realtime => 4
  | .completed => 5
  | .failed => 6

/-- Modelled from the spec: the file transition/controlState.go that
implements the transition table is absent from the sources (only its
test controlState_test.go is present).  The table is taken from spec
section 3, row = current activity, column = destination activity; it
agrees with the expected matrix of TestTransitions_IsValidTransition. -/
def IsValidTransition (a b : Activity) : Bool :=
  match a, b with
  | .waiting, .notStarted => true
  | .waiting, .completed => true
  | .waiting, .error => true
  | .precomputing, .waiting => true
  | .standby, .waiting => true
  | .standby, .precomputing => true
  | .realtime, .standby => true
  | .completed, .realtime => true
  | .error, .notStarted => true
  | .error, .waiting => true
  | .error, .precomputing => true
  | .error, .standby => true
  | .error, .realtime => true
  | .error, .completed => true
  | _, _ => false

/-- The expected transition matrix asserted by
TestTransitions_IsValidTransition in src/transition/controlState_test.go,
row by row in activity order (NOT_STARTED .. CRASH). -/
def expectedTransitionMatrix : Activity → List Bool
  | .notStarted => [false, false, false, false, false, false, false, false]
  | .waiting => [true, false, false, false, false, true, true, false]
  | .precomputing => [false, true, false, false, false, false, false, false]
  | .standby => [false, true, true, false, false, false, false, false]
  | .realtime => [false, false, false, true, false, false, false, false]
  | .completed => [false, false, false, false, true, false, false, false]
  | .error => [true, true, true, true, true, true, false, false]
  | .crash => [false, false, false, false, false, false, false, false]

/-- All eight activities in enumeration order. -/
def allActivities : List Activity :=
  [.notStarted, .waiting, .precomputing, .standby, .realtime, .completed,
   .error, .crash]

/-- C1: IsValidTransition(from, to) returns true exactly when the spec
transition table has a check mark: from WAITING to NOT_STARTED, COMPLETED
or ERROR; from PRECOMPUTING to WAITING; from STANDBY to WAITING or
PRECOMPUTING; from REALTIME to STANDBY; from COMPLETED to REALTIME; from
ERROR to NOT_STARTED, WAITING, PRECOMPUTING, STANDBY, REALTIME or
COMPLETED; and false for every other pair, in particular every pair whose
source is NOT_STARTED or CRASH and every pair whose destination is CRASH. -/
theorem isValidTransition_correct :
    (∀ a b : Activity, IsValidTransition a b = true ↔
      (a = .waiting ∧ (b = .notStarted ∨ b = .completed ∨ b = .error)) ∨
      (a = .precomputing ∧ b = .waiting) ∨
      (a = .standby ∧ (b = .waiting ∨ b = .precomputing)) ∨
      (a = .realtime ∧ b = .standby) ∨
      (a = .completed ∧ b = .realtime) ∨
      (a = .error ∧ (b = .notStarted ∨ b = .waiting ∨
        b = .precomputing ∨ b = .standby ∨ b = .realtime ∨
        b = .completed))) ∧
    (∀ b : Activity, IsValidTransition .notStarted b = false ∧
      IsValidTransition .crash b = false) ∧
    (∀ a : Activity, IsValidTransition a .crash = false) ∧
    (∀ a : Activity,
      allActivities.map (IsValidTransition a) =
        expectedTransitionMatrix a) := by
  refine ⟨?_, ?_, ?_, ?_⟩ <;> intro a <;> first
    | (intro b; revert a b; decide)
    | (revert a; decide)

/-- Association-list lookup keyed by Nat; models a Go map read. -/
def alookup {β : Type} : List (Nat × β) → Nat → Option β
  | [], _ => none
  | (k, v) :: rest, key => if key = k then some v else alookup rest key

/-- Association-list update-or-insert; models a Go map write. -/
def aset {β : Type} : List (Nat × β) → Nat → β → List (Nat × β)
  | [], key, v => [(key, v)]
  | (k, w) :: rest, key, v =>
    if key = k then (key, v) :: rest else (k, w) :: aset rest key v

theorem alookup_aset_self {β : Type} (m : List (Nat × β)) (k : Nat) (v : β) :
    alookup (aset m k v) k = some v := by
  induction m with
  | nil => simp [aset, alookup]
  | cons p rest ih =>
    obtain ⟨k1, v1⟩ := p
    by_cases h : k = k1 <;> simp [aset, alookup, h, ih]

theorem alookup_aset_other {β : Type} (m : List (Nat × β)) (k k2 : Nat)
    (v : β) (h : k2 ≠ k) : alookup (aset m k v) k2 = alookup m k2 := by
  induction m with
  | nil => simp [aset, alookup, h]
  | cons p rest ih =>
    obtain ⟨k1, v1⟩ := p
    by_cases h1 : k = k1
    · subst h1; simp [aset, alookup, h]
    · by_cases h2 : k2 = k1 <;> simp [aset, alookup, h1, h2, ih]

/-- Digit-string value; helper for the Go strconv.Atoi model. -/
def atoiNat (s : List Char) : Option Nat :=
  if s = [] then none
  else if s.all Char.isDigit then
    some (s.foldl (fun acc c => acc * 10 + (c.toNat - 48)) 0)
  else none

/-- Go strconv.Atoi modelled on char lists: an optional sign followed by
at least one decimal digit; anything else is a parse error (none). -/
def atoi : List Char → Option Int
  | [] => none
  | c :: rest =>
    if c = '-' then (atoiNat rest).map (fun n => -(n : Int))
    else if c = '+' then (atoiNat rest).map (fun n => (n : Int))
    else (atoiNat (c :: rest)).map (fun n => (n : Int))

/-- Go strings.SplitN(s, ".", 3) modelled on char lists: split on the
dot character, keeping everything after the second dot in one piece. -/
def splitN3 (s : List Char) : List (List Char) :=
  let parts := s.splitOn '.'
  if parts.length ≤ 3 then parts
  else parts.take 2 ++ [(parts.drop 2).intersperse ['.'] |>.flatten]

/-- The clientVersion record of cmd/registration.go: integer major and
minor versions and a free-form patch component. -/
structure ClientVersion where
  major : Int
  minor : Int
  patch : List Char
deriving DecidableEq, Repr

/-- The parseClientVersion function of cmd/registration.go: splits the
version string into three dot-separated components and parses the major
and the minor version with strconv.Atoi; the source parses both from
versions[0], the first component. -/
def parseClientVersion (s : List Char) : Except String ClientVersion :=
  match splitN3 s with
  | [v0, _v1, v2] =>
    match atoi v0 with
    | none => .error "Major client version could not be parsed as integer"
    | some major =>
      match atoi v0 with
      | none => .error "Minor client version could not be parsed as integer"
      | some minor => .ok ⟨major, minor, v2⟩
  | _ =>
    .error "Client version string must contain a major, minor, and patch version"

/-- The CheckClientVersion handler of cmd/registration.go, with the
process-global desiredVersion injected as a parameter: parses the given
version string, then requires the major versions to be equal and the
minor version to be at least the desired minor version. -/
def CheckClientVersion (desiredVersion : ClientVersion) (versionString : List Char) :
    Except String Bool :=
  match parseClientVersion versionString with
  | .error e => .error e
  | .ok version =>
    if version.major ≠ desiredVersion.major then .ok false
    else if version.minor < desiredVersion.minor then .ok false
    else .ok true

/-- C9: every successfully parsed client version has minor = major,
because parseClientVersion parses both fields from the first component;
consequently CheckClientVersion compares major versions where it means to
compare minor versions, and when the desired version was itself produced
by parseClientVersion the compatibility result is exactly equality of the
major versions, so the real minor component of the string never affects
the result. -/
theorem parseClientVersion_minor_is_major :
    (∀ s v, parseClientVersion s = .ok v → v.minor = v.major) ∧
    (∀ d s v, parseClientVersion s = .ok v →
      CheckClientVersion d s =
        .ok (decide (v.major = d.major) && decide (d.minor ≤ v.major))) ∧
    (∀ t d s v, parseClientVersion t = .ok d → parseClientVersion s = .ok v →
      CheckClientVersion d s = .ok (decide (v.major = d.major))) := by
  have hmin : ∀ s v, parseClientVersion s = .ok v → v.minor = v.major := by
    intro s v h
    unfold parseClientVersion at h
    split at h
    · split at h
      · exact Except.noConfusion h
      · split at h
        · exact Except.noConfusion h
        · injection h with h
          subst h
          simp_all
    · exact Except.noConfusion h
  have hchk : ∀ d s v, parseClientVersion s = .ok v →
      CheckClientVersion d s =
        .ok (decide (v.major = d.major) && decide (d.minor ≤ v.major)) := by
    intro d s v h
    have hm := hmin s v h
    have hred : CheckClientVersion d s =
        if v.major ≠ d.major then .ok false
        else if v.minor < d.minor then .ok false else .ok true := by
      unfold CheckClientVersion
      rw [h]
    rw [hred]
    rcases eq_or_ne v.major d.major with h1 | h1
    · rw [if_neg (by simp [h1])]
      rcases lt_or_le v.minor d.minor with h2 | h2
      · rw [if_pos h2, decide_eq_true h1,
          decide_eq_false (show ¬ d.minor ≤ v.major by omega), Bool.true_and]
      · rw [if_neg (by omega), decide_eq_true h1,
          decide_eq_true (show d.minor ≤ v.major by omega), Bool.true_and]
    · rw [if_pos (by simp [h1]), decide_eq_false h1, Bool.false_and]
  refine ⟨hmin, hchk, ?_⟩
  intro t d s v ht hs
  rw [hchk d s v hs]
  have hd := hmin t d ht
  have hv := hmin s v hs
  rcases eq_or_ne v.major d.major with h1 | h1
  · rw [decide_eq_true h1, decide_eq_true (show d.minor ≤ v.major by omega),
      Bool.true_and]
  · rw [decide_eq_false h1, Bool.false_and]

/-- Witness for C9 at the concrete version strings 2.7.1 (client) and
2.3.0 (desired): the parsed minor equals the parsed major, and the check
result is determined by the major versions alone. -/
theorem parseClientVersion_minor_is_major_witness :
    parseClientVersion ['2', '.', '7', '.', '1'] = .ok ⟨2, 2, ['1']⟩ ∧
    CheckClientVersion ⟨2, 2, ['0']⟩ ['2', '.', '7', '.', '1'] = .ok true := by
  have h1 : parseClientVersion ['2', '.', '7', '.', '1'] = .ok ⟨2, 2, ['1']⟩ := by
    rfl
  have h2 : parseClientVersion ['2', '.', '3', '.', '0'] = .ok ⟨2, 2, ['0']⟩ := by
    rfl
  refine ⟨h1, ?_⟩
  have := parseClientVersion_minor_is_major.2.2 ['2', '.', '3', '.', '0']
    ⟨2, 2, ['0']⟩ ['2', '.', '7', '.', '1'] ⟨2, 2, ['1']⟩ h2 h1
  rw [this]
  rfl

/-- The NodeState record of src/storage/state.go: the activity last
reported by the node and the timestamp of its last poll.  The Go zero
value has activity NOT_STARTED (= 0) and the zero time, modelled as 0. -/
structure NodeState where
  activity : Activity
  lastPoll : Int
deriving DecidableEq, Repr

/-- The node-state portion of the State struct of src/storage/state.go:
the NodeStates map from node id to node state. -/
structure State where
  nodeStates : List (Nat × NodeState)
deriving DecidableEq, Repr

/-- The GetNodeState method of src/storage/state.go: returns the
NodeState for the given id, creating a fresh zero-valued entry in the
NodeStates map when none exists.  The returned state pairs the possibly
extended map with the record the Go code returns by pointer. -/
def State.GetNodeState (s : State) (nid : Nat) : State × NodeState :=
  match alookup s.nodeStates nid with
  | none =>
    let fresh : NodeState := ⟨.notStarted, 0⟩
    (⟨aset s.nodeStates nid fresh⟩, fresh)
  | some ns => (s, ns)

/-- C10: GetNodeState is total: it always returns a (non-nil) NodeState
which is the one stored in the map afterwards; when no record existed it
inserts and returns the zero-valued record, when one existed it returns
it with the map unchanged; and a second call with the same id returns
the same record and leaves the state unchanged. -/
theorem getNodeState_total (s : State) (nid : Nat) :
    alookup (s.GetNodeState nid).1.nodeStates nid = some (s.GetNodeState nid).2 ∧
    (alookup s.nodeStates nid = none →
      (s.GetNodeState nid).2 = ⟨.notStarted, 0⟩) ∧
    (∀ ns, alookup s.nodeStates nid = some ns →
      (s.GetNodeState nid).1 = s ∧ (s.GetNodeState nid).2 = ns) ∧
    (s.GetNodeState nid).1.GetNodeState nid = s.GetNodeState nid := by
  cases hl : alookup s.nodeStates nid with
  | none =>
    have he : s.GetNodeState nid =
        (⟨aset s.nodeStates nid ⟨.notStarted, 0⟩⟩, ⟨.notStarted, 0⟩) := by
      unfold State.GetNodeState
      rw [hl]
    rw [he]
    refine ⟨alookup_aset_self _ _ _, fun _ => rfl,
      fun ns hns => Option.noConfusion hns, ?_⟩
    unfold State.GetNodeState
    rw [alookup_aset_self]
  | some ns =>
    have he : s.GetNodeState nid = (s, ns) := by
      unfold State.GetNodeState
      rw [hl]
    rw [he]
    exact ⟨hl, fun hnone => Option.noConfusion hnone,
      fun ns2 hns2 => by cases hns2; exact ⟨rfl, rfl⟩, he⟩

/-- Witness for C10 at a concrete state: starting from the empty map,
looking node 5 up twice returns the fresh zero record both times. -/
theorem getNodeState_total_witness :
    alookup ((State.GetNodeState ⟨[]⟩ 5).1.GetNodeState 5).1.nodeStates 5 =
      some ⟨.notStarted, 0⟩ := by
  have h := (getNodeState_total ⟨[]⟩ 5).2.2.2
  rw [h]
  exact (getNodeState_total ⟨[]⟩ 5).1.trans (by rfl)

/-- Connectivity state of a node (storage/node, absent from the sources;
names follow the constants used in cmd: PortUnknown, PortVerifying,
PortSuccessful, NodePortFailed, GatewayPortFailed, PortFailed). -/
inductive Connectivity where
  | portUnknown
  | portVerifying
  | portSuccessful
  | nodePortFailed
  | gatewayPortFailed
  | portFailed
deriving DecidableEq, Repr

/-- Node status (storage/node, absent from the sources; values follow the
constants used in cmd and scheduling: Active, Inactive, Banned). -/
inductive NodeStatus where
  | unregistered
  | active
  | inactive
  | banned
deriving DecidableEq, Repr

/-- The pb.RoundError wire message: round id, the reporting node id in
marshalled form (none models bytes that id.Unmarshal rejects), and the
error text.  The RSA signature is not modelled; claims use it only as an
opaque payload. -/
structure RoundError where
  id : Nat
  nodeId : Option Nat
  errorMsg : String
deriving DecidableEq, Repr

/-- The node id under which the permissioning server signs its own round
errors (id.Permissioning), distinct from any mix node id in examples. -/
def permissioningNodeId : Nat := 999

/-- Modelled from the spec: the storage/node State record (absent from
the sources), spec section 3 node record: identity, current activity,
reference to the current round (by round id), status, poll counter,
connectivity state, ordering tag. -/
structure Node.State where
  id : Nat
  activity : Activity
  currentRound : Option Nat
  status : NodeStatus
  numPolls : Nat
  connectivity : Connectivity
  ordering : List Char
deriving DecidableEq, Repr

/-- Modelled from the spec: the storage/round State record (absent from
the sources), spec section 3 round record: round id, immutable topology,
batch size, current phase, per-phase timestamp array, ready counter,
accumulated errors (the Go code may append a nil error pointer, hence
Option), client errors, completed-flag and realtime-completed stamp. -/
structure Round.State where
  roundID : Nat
  topology : List Nat
  batchSize : Nat
  state : RoundPhase
  ts : RoundPhase → Int
  readyCount : Nat
  errors : List (Option RoundError)
  clientErrors : List String
  completedFlag : Bool
  realtimeCompletedTs : Int

/-- The pb.RoundInfo update record: round id, update id, round state,
batch size, topology, per-phase timestamps and whether it carries a
signature. -/
structure RoundInfo where
  id : Nat
  updateID : Nat
  state : RoundPhase
  batchSize : Nat
  topology : List Nat
  ts : RoundPhase → Int
  signed : Bool

/-- Modelled from the spec: round.State.Update (absent from the
sources), spec section 3 round invariants: phase changes only move
forward through PENDING to COMPLETED, or sideways to FAILED from any
state; once FAILED only error accumulation is allowed.  A legal change
records the timestamp for the new phase. -/
def Round.Update (r : Round.State) (s : RoundPhase) (t : Int) : Except String Round.State :=
  if r.state = .failed then .error "round is failed and cannot change state"
  else if s = .failed ∨ phaseIdx r.state < phaseIdx s then
    .ok { r with state := s, ts := fun p => if p = s then t else r.ts p }
  else .error "round state change does not move forward"

/-- Modelled from the spec: round.State.NodeIsReadyForTransition (absent
from the sources), spec section 4.6: increment the ready counter and
report whether it has reached the topology size. -/
def Round.NodeIsReadyForTransition (r : Round.State) : Round.State × Bool :=
  let r2 := { r with readyCount := r.readyCount + 1 }
  (r2, r2.readyCount == r2.topology.length)

/-- Modelled from the spec: round.State.BuildRoundInfo (absent from the
sources): package the round data as an unsigned RoundInfo; the update id
and the signature are assigned when the info enters the update log. -/
def BuildRoundInfo (r : Round.State) : RoundInfo :=
  ⟨r.roundID, 0, r.state, r.batchSize, r.topology, r.ts, false⟩

/-- The aggregate network state (storage.NetworkState, absent from the
sources): node map, round records (roundHeap holds every round object
ever created, keyed by its unique id, which models Go pointers that
survive removal from the map; roundMapIds is the set of ids currently in
the round map), the update log and the monotonic update counter. -/
structure NetworkState where
  nodes : List (Nat × Node.State)
  roundHeap : List (Nat × Round.State)
  roundMapIds : List Nat
  updates : List RoundInfo
  updateCounter : Nat

/-- Modelled from the spec: NetworkState.AddRoundUpdate (absent from the
sources), spec section 3 round-updates log: sign the RoundInfo, assign
the next monotonically increasing update id, and append it to the
append-only log. -/
def NetworkState.AddRoundUpdate (st : NetworkState) (info : RoundInfo) : NetworkState :=
  { st with
    updates := st.updates ++ [{ info with updateID := st.updateCounter, signed := true }],
    updateCounter := st.updateCounter + 1 }

/-- Modelled from the spec: the waiting pool (absent from the sources),
spec section 4.3: online and offline subsets of node ids. -/
structure Pool where
  online : List Nat
  offline : List Nat
deriving DecidableEq, Repr

/-- Modelled from the spec: pool.Add places a node into the online
subset. -/
def Pool.Add (p : Pool) (nid : Nat) : Pool :=
  { p with online := nid :: p.online }

/-- Modelled from the spec: pool.SetNodeToOnline moves a node from the
offline subset to the online subset. -/
def Pool.SetNodeToOnline (p : Pool) (nid : Nat) : Pool :=
  ⟨nid :: p.online, p.offline.erase nid⟩

/-- Modelled from the spec: pool.Ban removes a node from both subsets. -/
def Pool.Ban (p : Pool) (nid : Nat) : Pool :=
  ⟨p.online.erase nid, p.offline.erase nid⟩

/-- The node.UpdateNotification record handed from the poll handler to
the scheduler: node id, status edge, activity edge, client errors and an
optional round error payload. -/
structure UpdateNotification where
  node : Nat
  fromStatus : NodeStatus
  toStatus : NodeStatus
  fromActivity : Activity
  toActivity : Activity
  clientErrors : List String
  errorPayload : Option RoundError
deriving DecidableEq, Repr

/-- State threaded through the scheduler (the stateChanger of
scheduling/nodeStateChange.go together with its collaborators): the
last-realtime stamp, the waiting pool, the network state, the round
tracker (activeRounds), and effect logs for the spawned realtime-timeout
goroutines, the round metrics handed to StoreRoundMetric, and the texts
handed to InsertRoundError. -/
structure SchedState where
  lastRealtime : Int
  pool : Pool
  net : NetworkState
  activeRounds : List Nat
  armedRealtimeTimeouts : List Nat
  storedMetrics : List Nat
  insertedRoundErrors : List (Nat × String)

/-- Scheduler timing parameters (the realtimeDelay and realtimeDelta
fields of the stateChanger). -/
structure SchedConfig where
  realtimeDelay : Int
  realtimeDelta : Int
deriving DecidableEq, Repr

/-- Write a node record back into the node map. -/
def setNode (s : SchedState) (nid : Nat) (n : Node.State) : SchedState :=
  { s with net := { s.net with nodes := aset s.net.nodes nid n } }

/-- Write a round record back into the round heap (a Go pointer write
through round.State). -/
def setRound (s : SchedState) (rid : Nat) (r : Round.State) : SchedState :=
  { s with net := { s.net with roundHeap := aset s.net.roundHeap rid r } }

/-- Number of topology members whose current-round pointer is cleared or
points to a different round, as counted by the loop in killRound. -/
def clearedCount (nodes : List (Nat × Node.State)) (topology : List Nat)
    (rid : Nat) : Nat :=
  topology.countP (fun nid =>
    match alookup nodes nid with
    | some ns => decide (ns.currentRound ≠ some rid)
    | none => false)

/-- The killRound function of scheduling/nodeStateChange.go: append the
error to the round, transition it to FAILED (removing it from the round
tracker when that transition succeeds), publish a RoundInfo update, then
count the topology members that have cleared the round: if all have, the
round id is deleted from the round map; otherwise, if exactly one has,
the round metric is stored and, when an error payload is present, the
formatted error text is inserted.  A topology member missing from the
node map would be a nil dereference in Go; it is modelled as an error
return. -/
def killRound (now : Int) (s : SchedState) (rid : Nat)
    (roundError : Option RoundError) : SchedState × Option String :=
  match alookup s.net.roundHeap rid with
  | none => (s, some "round pointer is not in the round heap")
  | some r =>
    let r1 := { r with errors := r.errors ++ [roundError] }
    let (r2, tracker2) :=
      match Round.Update r1 .failed now with
      | .ok r2 => (r2, s.activeRounds.erase rid)
      | .error _ => (r1, s.activeRounds)
    let s1 := { s with
      net := { s.net with roundHeap := aset s.net.roundHeap rid r2 },
      activeRounds := tracker2 }
    let s2 := { s1 with net := s1.net.AddRoundUpdate (BuildRoundInfo r2) }
    if r2.topology.all (fun nid => (alookup s2.net.nodes nid).isSome) then
      let numCleared := clearedCount s2.net.nodes r2.topology rid
      if numCleared = r2.topology.length then
        ({ s2 with net :=
          { s2.net with roundMapIds := s2.net.roundMapIds.erase rid } }, none)
      else if numCleared = 1 then
        let s3 := { s2 with storedMetrics := s2.storedMetrics ++ [rid] }
        match roundError with
        | none => (s3, none)
        | some e =>
          let idStr := match e.nodeId with
            | none => "N/A"
            | some nid => toString nid
          ({ s3 with insertedRoundErrors := s3.insertedRoundErrors ++
            [(rid, "Round Error from " ++ idStr ++ ": " ++ e.errorMsg)] }, none)
      else (s2, none)
    else (s2, some "node in topology is not in the node map")

/-- The with-round half of HandleNodeUpdates (scheduling/
nodeStateChange.go): the notification's node n holds round rid whose
record is r.  Applies the FAILED-round rewrite to ERROR, appends client
errors, handles banning, then dispatches on the (possibly rewritten)
activity exactly as the Go switch does. -/
def handleWithRound (cfg : SchedConfig) (now : Int) (s0 : SchedState)
    (u0 : UpdateNotification) (n : Node.State) (rid : Nat) (r0 : Round.State) :
    SchedState × Option String :=
  let u := if r0.state = .failed ∧ u0.toActivity ≠ .error then
    { u0 with toActivity := .error } else u0
  let r := if u.clientErrors ≠ [] then
    { r0 with clientErrors := r0.clientErrors ++ u.clientErrors } else r0
  let s := setRound s0 rid r
  if u.toStatus = .banned then
    let banError : RoundError := ⟨rid, some permissioningNodeId,
      "Round killed due to particiption of banned node " ++ toString u.node⟩
    let s := setNode s u.node { n with currentRound := none }
    killRound now s rid (some banError)
  else
    match u.toActivity with
    | .notStarted => (s, none)
    | .waiting =>
      if u.fromStatus = .inactive ∧ u.toStatus = .active then
        ({ s with pool := s.pool.SetNodeToOnline n.id }, none)
      else
        ({ s with pool := s.pool.Add n.id }, none)
    | .precomputing => (s, none)
    | .standby =>
      let (rA, complete) := Round.NodeIsReadyForTransition r
      let s := setRound s rid rA
      if complete then
        match Round.Update rA .standby now with
        | .error e =>
          (s, some ("Could not move round from PRECOMPUTING to STANDBY: " ++ e))
        | .ok rB =>
          let rC := { rB with completedFlag := true }
          let s := { setRound s rid rC with
            armedRealtimeTimeouts := s.armedRealtimeTimeouts ++ [rid] }
          let startTime :=
            max (now + cfg.realtimeDelay) (s.lastRealtime + cfg.realtimeDelta)
          let s := { s with lastRealtime := startTime }
          match Round.Update rC .queued startTime with
          | .error e =>
            (s, some ("Could not move round from STANDBY to QUEUED: " ++ e))
          | .ok rD =>
            let s := setRound s rid rD
            let s := { s with net := s.net.AddRoundUpdate (BuildRoundInfo rD) }
            (s, none)
      else (s, none)
    | .realtime =>
      if r.state ≠ .realtime then
        match Round.Update r .realtime now with
        | .error e =>
          (s, some ("Could not move round from QUEUED to REALTIME: " ++ e))
        | .ok rE => (setRound s rid rE, none)
      else (s, none)
    | .completed =>
      let s := setNode s u.node { n with currentRound := none }
      let r := if r.topology.getLast? = some n.id then
        { r with realtimeCompletedTs := now } else r
      let (rA, complete) := Round.NodeIsReadyForTransition r
      let s := setRound s rid rA
      if complete then
        match Round.Update rA .completed now with
        | .error e =>
          (s, some ("Could not move round from REALTIME to COMPLETED: " ++ e))
        | .ok rB =>
          let info := BuildRoundInfo rB
          let s := setRound s rid rB
          let s := { s with net := s.net.AddRoundUpdate info }
          let rC := { rB with completedFlag := true }
          let s := setRound s rid rC
          let s := { s with activeRounds := s.activeRounds.erase rid }
          let s := { s with storedMetrics := s.storedMetrics ++ [rid] }
          (s, none)
      else (s, none)
    | .error =>
      let s := setNode s u.node { n with currentRound := none }
      let s := setRound s rid { r with completedFlag := true }
      killRound now s rid u.errorPayload
    | .crash => (s, none)

/-- The no-round half of HandleNodeUpdates: the FAILED-round rewrite does
not apply; appending client errors would dereference a nil round in Go
and is modelled as an error; banning only removes the node from the
pool; round-requiring activities produce the orphan errors of the Go
switch. -/
def handleNoRound (s : SchedState) (u0 : UpdateNotification)
    (n : Node.State) : SchedState × Option String :=
  if u0.clientErrors ≠ [] then
    (s, some "client errors reported by a node with no round")
  else if u0.toStatus = .banned then
    ({ s with pool := s.pool.Ban n.id }, none)
  else
    match u0.toActivity with
    | .notStarted => (s, none)
    | .waiting =>
      if u0.fromStatus = .inactive ∧ u0.toStatus = .active then
        ({ s with pool := s.pool.SetNodeToOnline n.id }, none)
      else
        ({ s with pool := s.pool.Add n.id }, none)
    | .precomputing =>
      (s, some "Node without round should not be moving to the PRECOMPUTING state")
    | .standby =>
      (s, some "Node without round should not be in the PRECOMPUTING state")
    | .realtime =>
      (s, some "Node without round should not be moving to the REALTIME state")
    | .completed =>
      (s, some "Node without round should not be in the COMPLETED state")
    | .error => (s, none)
    | .crash => (s, none)

/-- The HandleNodeUpdates handler of scheduling/nodeStateChange.go: look
the node up, read its current round and dispatch to the with-round or
no-round body.  A node missing from the map would be a nil dereference
in Go (GetNode returns nil), modelled as an error return; a round
pointer whose id is missing from the heap cannot arise, because the heap
keeps every round object ever created. -/
def HandleNodeUpdates (cfg : SchedConfig) (now : Int) (s : SchedState)
    (u0 : UpdateNotification) : SchedState × Option String :=
  match alookup s.net.nodes u0.node with
  | none => (s, some "node is not in the node map")
  | some n =>
    match n.currentRound with
    | some rid =>
      match alookup s.net.roundHeap rid with
      | none => (s, some "dangling round pointer")
      | some r => handleWithRound cfg now s u0 n rid r
    | none => handleNoRound s u0 n

theorem Round.update_of_failed (r : Round.State) (s : RoundPhase) (t : Int)
    (hf : r.state = .failed) :
    Round.Update r s t = .error "round is failed and cannot change state" := by
  simp [Round.Update, hf]

theorem Round.update_to_failed (r : Round.State) (t : Int)
    (hnf : r.state ≠ .failed) :
    Round.Update r .failed t = .ok { r with
      state := .failed,
      ts := fun p => if p = .failed then t else r.ts p } := by
  simp [Round.Update, hnf]

/-- C3 (amended): killRound appends the error to the round, transitions
it to FAILED, and appends a RoundInfo update to the log; it deletes the
round from the round map iff every topology member has cleared the
round; and it persists the round metric and the formatted error text iff
exactly one topology member has cleared it AND not all have — with a
one-node topology the sole cleared member triggers the map removal and
no metric or error text is persisted. -/
theorem killRound_characterization (now : Int) (s : SchedState) (rid : Nat)
    (err : RoundError) (r : Round.State)
    (hr : alookup s.net.roundHeap rid = some r)
    (hnf : r.state ≠ .failed)
    (hall : r.topology.all (fun nid => (alookup s.net.nodes nid).isSome) = true) :
    (killRound now s rid (some err)).2 = none ∧
    (∃ r2, alookup (killRound now s rid (some err)).1.net.roundHeap rid = some r2 ∧
      r2.state = .failed ∧ r2.errors = r.errors ++ [some err] ∧
      r2.topology = r.topology ∧ r2.ts .failed = now) ∧
    (∃ info, (killRound now s rid (some err)).1.net.updates =
        s.net.updates ++ [info] ∧
      info.state = .failed ∧ info.signed = true ∧ info.id = r.roundID ∧
      info.updateID = s.net.updateCounter) ∧
    (killRound now s rid (some err)).1.net.roundMapIds =
      (if clearedCount s.net.nodes r.topology rid = r.topology.length then
        s.net.roundMapIds.erase rid else s.net.roundMapIds) ∧
    (killRound now s rid (some err)).1.storedMetrics =
      (if clearedCount s.net.nodes r.topology rid = 1 ∧
          clearedCount s.net.nodes r.topology rid ≠ r.topology.length then
        s.storedMetrics ++ [rid] else s.storedMetrics) ∧
    (killRound now s rid (some err)).1.insertedRoundErrors =
      (if clearedCount s.net.nodes r.topology rid = 1 ∧
          clearedCount s.net.nodes r.topology rid ≠ r.topology.length then
        s.insertedRoundErrors ++ [(rid, "Round Error from " ++
          (match err.nodeId with
            | none => "N/A"
            | some nid => toString nid) ++ ": " ++ err.errorMsg)]
      else s.insertedRoundErrors) := by
  have hupd : Round.Update { r with errors := r.errors ++ [some err] } .failed now =
      .ok { r with
        errors := r.errors ++ [some err],
        state := .failed,
        ts := fun p => if p = .failed then now else r.ts p } := by
    rw [Round.update_to_failed _ _ (by simpa using hnf)]
  simp only [killRound, hr, hupd, NetworkState.AddRoundUpdate, BuildRoundInfo]
  rw [if_pos hall]
  by_cases hc1 : clearedCount s.net.nodes r.topology rid = r.topology.length
  · by_cases hc2 : clearedCount s.net.nodes r.topology rid = 1
    · have hlen : r.topology.length = 1 := by omega
      simp [hc1, hc2, hlen, alookup_aset_self,
        NetworkState.AddRoundUpdate, BuildRoundInfo]
    · simp [hc1, hc2, alookup_aset_self,
        NetworkState.AddRoundUpdate, BuildRoundInfo]
  · by_cases hc2 : clearedCount s.net.nodes r.topology rid = 1
    · have hne : ¬ (1 = r.topology.length) := by omega
      simp [hc1, hc2, hne, alookup_aset_self,
        NetworkState.AddRoundUpdate, BuildRoundInfo]
    · simp [hc1, hc2, alookup_aset_self,
        NetworkState.AddRoundUpdate, BuildRoundInfo]

theorem killRound_stays_failed (now : Int) (s : SchedState) (rid : Nat)
    (e : Option RoundError) (r : Round.State)
    (hr : alookup s.net.roundHeap rid = some r) (hf : r.state = .failed) :
    ∃ r2, alookup (killRound now s rid e).1.net.roundHeap rid = some r2 ∧
      r2.state = .failed := by
  have hupd := Round.update_of_failed { r with errors := r.errors ++ [e] }
    .failed now (by simpa using hf)
  simp only [killRound, hr, hupd, NetworkState.AddRoundUpdate, BuildRoundInfo]
  repeat' split
  all_goals exact ⟨_, alookup_aset_self _ _ _, by simpa using hf⟩

/-- A concrete node that has cleared its round pointer. -/
def exNodeCleared : Node.State := ⟨7, .error, none, .active, 0, .portSuccessful, []⟩

/-- A concrete node still holding round 1. -/
def exNodeHolding : Node.State := ⟨8, .realtime, some 1, .active, 3, .portSuccessful, []⟩

/-- A concrete one-node round (topology [7]) in REALTIME. -/
def exRoundSingle : Round.State := ⟨1, [7], 4, .realtime, fun _ => 0, 1, [], [], false, 0⟩

/-- A concrete two-node round (topology [7, 8]) in REALTIME. -/
def exRoundDuo : Round.State := ⟨1, [7, 8], 4, .realtime, fun _ => 0, 2, [], [], false, 0⟩

/-- A concrete scheduler state holding the one-node round whose only
member has cleared it. -/
def exStateSingle : SchedState :=
  ⟨0, ⟨[], []⟩, ⟨[(7, exNodeCleared)], [(1, exRoundSingle)], [1], [], 0⟩, [1], [], [], []⟩

/-- A concrete scheduler state holding the two-node round, with node 7
cleared and node 8 still holding the round. -/
def exStateDuo : SchedState :=
  ⟨0, ⟨[], []⟩, ⟨[(7, exNodeCleared), (8, exNodeHolding)], [(1, exRoundDuo)], [1], [], 0⟩,
    [1], [], [], []⟩

/-- C3 counterexample: on a one-node round whose only topology member
has cleared it, exactly one member is cleared, yet killRound persists no
round metric and no error text (it deletes the round from the map
instead), refuting the claimed iff between the metric insert and
"exactly one member cleared". -/
theorem killRound_metric_iff_counterexample :
    clearedCount exStateSingle.net.nodes exRoundSingle.topology 1 = 1 ∧
    exRoundSingle.topology.length = 1 ∧
    (killRound 5 exStateSingle 1 (some ⟨1, some 7, "boom"⟩)).1.storedMetrics = [] ∧
    (killRound 5 exStateSingle 1 (some ⟨1, some 7, "boom"⟩)).1.insertedRoundErrors = [] ∧
    (killRound 5 exStateSingle 1 (some ⟨1, some 7, "boom"⟩)).1.net.roundMapIds = [] := by
  refine ⟨rfl, rfl, rfl, rfl, rfl⟩

/-- Witness for C3 at the two-node round: node 7 is the only cleared
member and not all are cleared, so killRound returns no error and stores
the round metric. -/
theorem killRound_characterization_witness :
    (killRound 5 exStateDuo 1 (some ⟨1, some 7, "boom"⟩)).2 = none ∧
    (killRound 5 exStateDuo 1 (some ⟨1, some 7, "boom"⟩)).1.storedMetrics = [1] := by
  have h := killRound_characterization 5 exStateDuo 1 ⟨1, some 7, "boom"⟩
    exRoundDuo (by rfl) (by decide) (by rfl)
  refine ⟨h.1, ?_⟩
  rw [h.2.2.2.2.1]
  rfl

/-- C4: when the node's round is already FAILED and the incoming
activity is not ERROR, HandleNodeUpdates behaves exactly as if the
notification carried ERROR (the activity is rewritten before dispatch),
and after handling, the round is still FAILED: a failed round is never
advanced by a non-ERROR activity report. -/
theorem handleNodeUpdates_failed_rewrite (cfg : SchedConfig) (now : Int)
    (s : SchedState) (u : UpdateNotification) (n : Node.State) (rid : Nat)
    (r : Round.State)
    (hn : alookup s.net.nodes u.node = some n)
    (hcr : n.currentRound = some rid)
    (hr : alookup s.net.roundHeap rid = some r)
    (hf : r.state = .failed)
    (hne : u.toActivity ≠ .error) :
    HandleNodeUpdates cfg now s u =
      HandleNodeUpdates cfg now s { u with toActivity := .error } ∧
    (∃ r2, alookup (HandleNodeUpdates cfg now s u).1.net.roundHeap rid = some r2 ∧
      r2.state = .failed) := by
  constructor
  · simp [HandleNodeUpdates, hn, hcr, hr, handleWithRound, hf, hne]
  · by_cases hban : u.toStatus = .banned <;>
      by_cases hcl : u.clientErrors = [] <;>
      · simp only [HandleNodeUpdates, hn, hcr, hr]
        simp [handleWithRound, hf, hne, hban, hcl, setRound, setNode]
        exact killRound_stays_failed now _ rid _ _
          (alookup_aset_self _ _ _) (by simp [hf])

/-- A concrete FAILED two-node round (topology [7, 8]). -/
def exRoundFailed : Round.State := ⟨1, [7, 8], 4, .failed, fun _ => 0, 2, [], [], true, 0⟩

/-- A concrete scheduler state with node 8 holding the FAILED round. -/
def exStateFailed : SchedState :=
  ⟨0, ⟨[], []⟩,
    ⟨[(7, exNodeCleared), (8, exNodeHolding)], [(1, exRoundFailed)], [1], [], 0⟩,
    [1], [], [], []⟩

/-- A concrete STANDBY notification from node 8. -/
def exNotifStandby : UpdateNotification :=
  ⟨8, .active, .active, .precomputing, .standby, [], none⟩

/-- Concrete scheduler timing parameters. -/
def exCfg : SchedConfig := ⟨10, 100⟩

/-- Witness for C4: node 8 reports STANDBY while its round is FAILED;
the handler behaves as if ERROR had been reported and the round stays
FAILED. -/
theorem handleNodeUpdates_failed_rewrite_witness :
    HandleNodeUpdates exCfg 0 exStateFailed exNotifStandby =
      HandleNodeUpdates exCfg 0 exStateFailed
        { exNotifStandby with toActivity := .error } ∧
    (∃ r2, alookup (HandleNodeUpdates exCfg 0 exStateFailed
        exNotifStandby).1.net.roundHeap 1 = some r2 ∧
      r2.state = .failed) :=
  handleNodeUpdates_failed_rewrite exCfg 0 exStateFailed exNotifStandby
    exNodeHolding 1 exRoundFailed (by rfl) (by rfl) (by rfl) (by rfl) (by decide)

/-- C2: on a STANDBY notification for a node that holds a round in
PRECOMPUTING, if the incremented ready counter reaches the topology
size, the round is moved PRECOMPUTING to STANDBY (timestamped now), the
realtime timeout is armed, the round is moved STANDBY to QUEUED with
start timestamp max(now + RealtimeDelay, lastRealtime + RealtimeDelta),
and a signed RoundInfo is appended to the update log; if the counter has
not reached the topology size, only the counter changes and the round
phase, the log and the timeouts are untouched; if the node holds no
round, the handler returns an error. -/
theorem handleNodeUpdates_standby (cfg : SchedConfig) (now : Int)
    (s : SchedState) (u : UpdateNotification) (n : Node.State)
    (hn : alookup s.net.nodes u.node = some n)
    (hact : u.toActivity = .standby)
    (hstat : u.toStatus ≠ .banned)
    (hce : u.clientErrors = []) :
    (∀ rid r, n.currentRound = some rid →
      alookup s.net.roundHeap rid = some r →
      r.state = .precomputing →
      ((r.readyCount + 1 = r.topology.length →
        (HandleNodeUpdates cfg now s u).2 = none ∧
        (∃ r2, alookup (HandleNodeUpdates cfg now s u).1.net.roundHeap rid =
            some r2 ∧
          r2.state = .queued ∧
          r2.ts .standby = now ∧
          r2.ts .queued =
            max (now + cfg.realtimeDelay) (s.lastRealtime + cfg.realtimeDelta) ∧
          r2.readyCount = r.readyCount + 1 ∧
          r2.completedFlag = true) ∧
        (HandleNodeUpdates cfg now s u).1.armedRealtimeTimeouts =
          s.armedRealtimeTimeouts ++ [rid] ∧
        (∃ info, (HandleNodeUpdates cfg now s u).1.net.updates =
            s.net.updates ++ [info] ∧
          info.state = .queued ∧ info.signed = true ∧ info.id = r.roundID) ∧
        (HandleNodeUpdates cfg now s u).1.lastRealtime =
          max (now + cfg.realtimeDelay) (s.lastRealtime + cfg.realtimeDelta)) ∧
      (r.readyCount + 1 ≠ r.topology.length →
        (HandleNodeUpdates cfg now s u).2 = none ∧
        alookup (HandleNodeUpdates cfg now s u).1.net.roundHeap rid =
          some { r with readyCount := r.readyCount + 1 } ∧
        (HandleNodeUpdates cfg now s u).1.net.updates = s.net.updates ∧
        (HandleNodeUpdates cfg now s u).1.armedRealtimeTimeouts =
          s.armedRealtimeTimeouts))) ∧
    (n.currentRound = none →
      ∃ e, (HandleNodeUpdates cfg now s u).2 = some e) := by
  constructor
  · intro rid r hcr hr hstate
    constructor
    · intro hready
      have hbeq : (r.readyCount + 1 == r.topology.length) = true := by
        simp [hready]
      simp only [HandleNodeUpdates, hn, hcr, hr]
      simp [handleWithRound, hstate, hact, hstat, hce, setRound,
        Round.NodeIsReadyForTransition, hbeq, Round.Update, phaseIdx,
        NetworkState.AddRoundUpdate, BuildRoundInfo, alookup_aset_self]
    · intro hready
      have hbeq : (r.readyCount + 1 == r.topology.length) = false := by
        simp [hready]
      simp only [HandleNodeUpdates, hn, hcr, hr]
      simp [handleWithRound, hstate, hact, hstat, hce, setRound,
        Round.NodeIsReadyForTransition, hbeq, alookup_aset_self]
  · intro hcr
    simp only [HandleNodeUpdates, hn, hcr]
    simp [handleNoRound, hact, hstat, hce]

/-- A concrete two-node round in PRECOMPUTING with one ready report. -/
def exRoundPrecomp : Round.State := ⟨1, [7, 8], 4, .precomputing, fun _ => 0, 1, [], [], false, 0⟩

/-- A concrete scheduler state with node 8 holding the PRECOMPUTING
round. -/
def exStatePrecomp : SchedState :=
  ⟨0, ⟨[], []⟩,
    ⟨[(7, exNodeCleared), (8, exNodeHolding)], [(1, exRoundPrecomp)], [1], [], 0⟩,
    [1], [], [], []⟩

/-- Witness for C2: node 8 reports STANDBY as the last ready member of
the PRECOMPUTING round; the handler succeeds and the realtime start time
becomes max(0 + 10, 0 + 100) = 100. -/
theorem handleNodeUpdates_standby_witness :
    (HandleNodeUpdates exCfg 0 exStatePrecomp exNotifStandby).2 = none ∧
    (HandleNodeUpdates exCfg 0 exStatePrecomp exNotifStandby).1.lastRealtime = 100 := by
  have h := (handleNodeUpdates_standby exCfg 0 exStatePrecomp exNotifStandby
    exNodeHolding (by rfl) (by rfl) (by decide) (by rfl)).1 1 exRoundPrecomp
    (by rfl) (by rfl) (by rfl)
  have h2 := h.1 (by decide)
  refine ⟨h2.1, ?_⟩
  rw [h2.2.2.2.2]
  decide

/-- A signed network definition document: its hash and its marshalled
body (dataStructures.Ndf, reduced to what the poll handler consults). -/
structure Ndf where
  hash : List Nat
  body : List Nat
deriving DecidableEq, Repr

/-- The pb.PermissioningPoll request fields the poll handler of
cmd/poll.go consults: the reported activity, the hash the node holds for
the full NDF, and the last update id it has seen. -/
structure PermissioningPoll where
  activity : Activity
  fullHash : List Nat
  lastUpdate : Nat
deriving DecidableEq, Repr

/-- The connect.Auth data consulted by the poll handler. -/
structure PollAuth where
  isAuthenticated : Bool
  isDynamicHost : Bool
  senderId : Nat
deriving DecidableEq, Repr

/-- The pb.PermissionPollResponse: optional full and partial NDF bodies
(strippedNDF models the PartialNDF field) and the round updates. -/
structure PermissionPollResponse where
  fullNDF : Option Ndf
  strippedNDF : Option Ndf
  updates : List RoundInfo

/-- The slice of RegistrationImpl state the poll handler of cmd/poll.go
reads: the NdfReady flag, the node map, the signed full NDF, the
stripped (partial) NDF, and the round-updates log. -/
structure RegistrationState where
  ndfReady : Nat
  nodes : List (Nat × Node.State)
  fullNdf : Ndf
  strippedNdf : Ndf
  updates : List RoundInfo

/-- The outcome of node.State.Update (storage/node, absent from the
sources): the updated node record, whether a state change occurred, the
packaged notification, and an error for an illegal transition.  The
poll-handler claims do not depend on its internals, so it is passed to
Poll as an oracle. -/
structure NodeUpdateResult where
  node : Node.State
  didUpdate : Bool
  notification : UpdateNotification
  err : Option String

/-- The Poll handler of cmd/poll.go: checks the NdfReady flag,
authentication, node existence and the banned flag; includes the full
and partial NDFs in the response iff the caller's hash differs from the
current full-NDF hash; attaches all updates newer than the caller's
lastUpdate (the GetUpdates model is total); then submits the reported
activity to node.Update and, when a state change occurred, forwards the
notification to the scheduler.  The middle component of the result is
the response (none models the nil response Go returns for a banned
node). -/
def Poll (m : RegistrationState)
    (updateFn : Node.State → Activity → NodeUpdateResult)
    (sendFn : UpdateNotification → Option String)
    (msg : PermissioningPoll) (auth : PollAuth) :
    RegistrationState × Option PermissionPollResponse × Option String :=
  let response : PermissionPollResponse := ⟨none, none, []⟩
  if m.ndfReady ≠ 1 then (m, some response, some "NO_NDF")
  else if ¬auth.isAuthenticated ∨ auth.isDynamicHost then
    (m, some response, some "AuthError")
  else
    match alookup m.nodes auth.senderId with
    | none =>
      (m, some response, some "node could not be found in internal state tracker")
    | some n =>
      if n.status = .banned then
        (m, none, some "Node has been banned from the network")
      else
        let response := if m.fullNdf.hash = msg.fullHash then response
          else { response with
            fullNDF := some m.fullNdf,
            strippedNDF := some m.strippedNdf }
        let response := { response with
          updates := m.updates.filter (fun i => msg.lastUpdate < i.updateID) }
        let res := updateFn n msg.activity
        let m2 := { m with nodes := aset m.nodes auth.senderId res.node }
        if res.didUpdate then (m2, some response, sendFn res.notification)
        else (m2, some response, res.err)

/-- C5: for a poll from an authenticated, known, unbanned node, the
response carries the full and the partial NDF iff the request's fullHash
differs from the hash of the currently signed full NDF; a poll carrying
the current hash receives no NDF body, and a poll carrying any other
hash receives exactly the current NDFs. -/
theorem poll_ndf_iff (m : RegistrationState)
    (updateFn : Node.State → Activity → NodeUpdateResult)
    (sendFn : UpdateNotification → Option String)
    (msg : PermissioningPoll) (auth : PollAuth) (n : Node.State)
    (h1 : m.ndfReady = 1)
    (h2 : auth.isAuthenticated = true)
    (h3 : auth.isDynamicHost = false)
    (h4 : alookup m.nodes auth.senderId = some n)
    (h5 : n.status ≠ .banned) :
    ∃ resp, (Poll m updateFn sendFn msg auth).2.1 = some resp ∧
      resp.fullNDF =
        (if m.fullNdf.hash = msg.fullHash then none else some m.fullNdf) ∧
      resp.strippedNDF =
        (if m.fullNdf.hash = msg.fullHash then none else some m.strippedNdf) ∧
      ((resp.fullNDF.isSome ∧ resp.strippedNDF.isSome) ↔
        msg.fullHash ≠ m.fullNdf.hash) ∧
      (msg.fullHash = m.fullNdf.hash →
        resp.fullNDF = none ∧ resp.strippedNDF = none) ∧
      (msg.fullHash ≠ m.fullNdf.hash → resp.fullNDF = some m.fullNdf) := by
  simp only [Poll, h1, h2, h3, h4]
  by_cases hh : m.fullNdf.hash = msg.fullHash <;>
    cases hdu : (updateFn n msg.activity).didUpdate <;>
    · simp [h5, hh, hdu]
      try exact fun hcontra => absurd hh (by simp [hcontra])

/-- A concrete registration state for the poll witness. -/
def exRegState : RegistrationState :=
  ⟨1, [(8, exNodeHolding)], ⟨[1, 2], [9]⟩, ⟨[3], [4]⟩, []⟩

/-- A concrete no-change node.Update oracle. -/
def exUpdateFn : Node.State → Activity → NodeUpdateResult :=
  fun nd _ => ⟨nd, false, ⟨0, .active, .active, .notStarted, .notStarted, [], none⟩, none⟩

/-- A concrete always-successful notification send oracle. -/
def exSendFn : UpdateNotification → Option String := fun _ => none

/-- Witness for C5: node 8 polls with a stale hash and receives the
current full NDF; polling with the current hash receives none. -/
theorem poll_ndf_iff_witness :
    (∃ resp, (Poll exRegState exUpdateFn exSendFn ⟨.waiting, [9, 9], 0⟩
        ⟨true, false, 8⟩).2.1 = some resp ∧
      resp.fullNDF = some exRegState.fullNdf) ∧
    (∃ resp, (Poll exRegState exUpdateFn exSendFn ⟨.waiting, [1, 2], 0⟩
        ⟨true, false, 8⟩).2.1 = some resp ∧
      resp.fullNDF = none ∧ resp.strippedNDF = none) := by
  constructor
  · obtain ⟨resp, hresp, hfull, -⟩ := poll_ndf_iff exRegState exUpdateFn
      exSendFn ⟨.waiting, [9, 9], 0⟩ ⟨true, false, 8⟩ exNodeHolding
      (by rfl) (by rfl) (by rfl) (by rfl) (by decide)
    refine ⟨resp, hresp, ?_⟩
    rw [hfull]
    decide
  · obtain ⟨resp, hresp, -, -, -, hnone, -⟩ := poll_ndf_iff exRegState exUpdateFn
      exSendFn ⟨.waiting, [1, 2], 0⟩ ⟨true, false, 8⟩ exNodeHolding
      (by rfl) (by rfl) (by rfl) (by rfl) (by decide)
    exact ⟨resp, hresp, hnone (by decide)⟩

/-- The synchronous outcome of the checkConnectivity handler (the Poll
helper in cmd): the node record after any synchronous connectivity
write, whether the async port-probe goroutine was started, whether the
poll should continue, and the error returned to the node. -/
structure ConnCheckResult where
  node : Node.State
  probeSpawned : Bool
  continuePoll : Bool
  err : Option String

/-- The checkConnectivity handler: in PortUnknown it starts the async
node/gateway probe (whose outcome, which depends on disableGatewayPing,
lands asynchronously and is not part of the synchronous result) and lets
the poll continue only for an ERROR activity; in PortVerifying likewise
without a probe; PortSuccessful continues; each failed state resets the
connectivity to PortUnknown on every poll with counter value 13 modulo
211 and returns a port-failure error regardless of the reported
activity. -/
def checkConnectivity (n : Node.State) (activity : Activity)
    (_disableGatewayPing : Bool) : ConnCheckResult :=
  match n.connectivity with
  | .portUnknown =>
    if activity = .error then ⟨n, true, true, none⟩
    else ⟨n, true, false, none⟩
  | .portVerifying =>
    if activity = .error then ⟨n, false, true, none⟩
    else ⟨n, false, false, none⟩
  | .portSuccessful => ⟨n, false, true, none⟩
  | .nodePortFailed =>
    let n2 := if n.numPolls % 211 = 13 then
      { n with connectivity := .portUnknown } else n
    ⟨n2, false, false,
      some "Node cannot be contacted by Permissioning, are ports properly forwarded?"⟩
  | .gatewayPortFailed =>
    let n2 := if n.numPolls % 211 = 13 then
      { n with connectivity := .portUnknown } else n
    ⟨n2, false, false,
      some "Gateway cannot be contacted by Permissioning, are ports properly forwarded?"⟩
  | .portFailed =>
    let n2 := if n.numPolls % 211 = 13 then
      { n with connectivity := .portUnknown } else n
    ⟨n2, false, false,
      some "Both Node and Gateway cannot be contacted by Permissioning, are ports properly forwarded?"⟩

/-- C7 (amended): in the NodePortFailed, GatewayPortFailed and
PortFailed states, checkConnectivity stops the poll with a port-failure
error for every reported activity, including ERROR — the reported
activity is not consulted at all in these states; the connectivity is
reset to PortUnknown exactly on polls whose counter is 13 modulo 211.
The ERROR exception exists only in the PortUnknown and PortVerifying
states, where an ERROR activity lets the poll continue with no error. -/
theorem checkConnectivity_failed_states (n : Node.State) (activity : Activity)
    (dis : Bool)
    (h : n.connectivity = .nodePortFailed ∨ n.connectivity = .gatewayPortFailed ∨
      n.connectivity = .portFailed) :
    (checkConnectivity n activity dis).continuePoll = false ∧
    (checkConnectivity n activity dis).err.isSome = true ∧
    checkConnectivity n activity dis = checkConnectivity n .error dis ∧
    (checkConnectivity n activity dis).node.connectivity =
      (if n.numPolls % 211 = 13 then .portUnknown else n.connectivity) ∧
    (∀ m : Node.State, (m.connectivity = .portUnknown ∨
        m.connectivity = .portVerifying) →
      (checkConnectivity m .error dis).continuePoll = true ∧
      (checkConnectivity m .error dis).err = none) := by
  refine ⟨?_, ?_, ?_, ?_, ?_⟩
  · rcases h with h | h | h <;> simp [checkConnectivity, h]
  · rcases h with h | h | h <;> simp [checkConnectivity, h]
  · rcases h with h | h | h <;> simp [checkConnectivity, h]
  · rcases h with h | h | h <;>
      · simp only [checkConnectivity, h]
        by_cases hm : n.numPolls % 211 = 13 <;> simp [hm, h]
  · intro m hm
    rcases hm with hm | hm <;> simp [checkConnectivity, hm]

/-- A concrete node in the NodePortFailed state. -/
def exNodePortFailed : Node.State := ⟨8, .error, some 1, .active, 1, .nodePortFailed, []⟩

/-- C7 counterexample: a node in NodePortFailed reporting ERROR is still
stopped with a port-failure error — the poll does not proceed, refuting
the claimed ERROR exception for the failed states. -/
theorem checkConnectivity_error_exception_counterexample :
    exNodePortFailed.connectivity = .nodePortFailed ∧
    (checkConnectivity exNodePortFailed .error false).continuePoll = false ∧
    (checkConnectivity exNodePortFailed .error false).err =
      some "Node cannot be contacted by Permissioning, are ports properly forwarded?" := by
  refine ⟨rfl, rfl, rfl⟩

/-- Witness for C7 at the concrete NodePortFailed node with a WAITING
activity: the poll is stopped with an error. -/
theorem checkConnectivity_failed_states_witness :
    (checkConnectivity exNodePortFailed .waiting false).continuePoll = false ∧
    (checkConnectivity exNodePortFailed .waiting false).err.isSome = true := by
  have h := checkConnectivity_failed_states exNodePortFailed .waiting false
    (by decide)
  exact ⟨h.1, h.2.1⟩

/-- The scheduling Params fields consumed by createSimpleRound. -/
structure Params where
  teamSize : Nat
  batchSize : Nat
  randomOrdering : Bool
deriving DecidableEq, Repr

/-- The protoRound record of scheduling: the ordered topology (slots may
be nil in Go when an ordering position was never written), round id,
batch size and the drawn node list. -/
structure protoRound where
  topology : List (Option Nat)
  id : Nat
  batchSize : Nat
  nodeStateList : List Nat

/-- One Go slice assignment orderedNodeList[pos] = nid; none models the
out-of-range panic. -/
def setAt {α : Type} (l : List (Option α)) (i : Nat) (v : α) :
    Option (List (Option α)) :=
  if i < l.length then some (l.set i (some v)) else none

/-- The random-ordering loop of createSimpleRound: write node i of the
drawn list into slot randomIndex[i]. -/
def scatterTopology (slots : List (Option Nat)) :
    List (Nat × Nat) → Option (List (Option Nat))
  | [] => some slots
  | (pos, nid) :: rest =>
    match setAt slots pos nid with
    | none => none
    | some slots2 => scatterTopology slots2 rest

/-- The ordering-tag loop of createSimpleRound: parse each node's
ordering tag with strconv.Atoi and write the node into that slot; a
non-numeric tag yields the Go error return, and a position outside the
slot range models the Go panic as an error. -/
def orderedTopology (getOrdering : Nat → List Char)
    (slots : List (Option Nat)) : List Nat → Except String (List (Option Nat))
  | [] => .ok slots
  | nid :: rest =>
    match atoi (getOrdering nid) with
    | none => .error "Could not parse ordering info from node"
    | some position =>
      if position < 0 ∨ slots.length ≤ position.toNat then
        .error "index out of range"
      else orderedTopology getOrdering (slots.set position.toNat (some nid)) rest

/-- The createSimpleRound composer of scheduling/simpleCreateRound.go.
The pool cleanup and the PickNRandAtThreshold draw are external state
and randomness, so the drawn team is the nodes parameter (of TeamSize
length per the pick contract); the Fisher-Yates shuffle.Shuffle of
[0..TeamSize) from the external crypto library is the randomIndex
parameter; each node's ordering tag is read through getOrdering. -/
def createSimpleRound (params : Params) (roundID : Nat) (nodes : List Nat)
    (randomIndex : List Nat) (getOrdering : Nat → List Char) :
    Except String protoRound :=
  let slots : List (Option Nat) := List.replicate params.teamSize none
  if params.randomOrdering then
    match scatterTopology slots (randomIndex.zip nodes) with
    | none => .error "index out of range"
    | some topo => .ok ⟨topo, roundID, params.batchSize, nodes⟩
  else
    match orderedTopology getOrdering slots nodes with
    | .error e => .error e
    | .ok topo => .ok ⟨topo, roundID, params.batchSize, nodes⟩

open List in
theorem filterMap_id_set_none {α : Type} (l : List (Option α)) (i : Nat) (v : α)
    (hi : i < l.length) (hnone : l[i]? = some none) :
    (l.set i (some v)).filterMap id ~ v :: l.filterMap id := by
  induction l generalizing i with
  | nil => simp at hi
  | cons a t ih =>
    cases i with
    | zero =>
      simp only [List.getElem?_cons_zero, Option.some.injEq] at hnone
      subst hnone
      simp [List.set]
    | succ j =>
      simp only [List.getElem?_cons_succ] at hnone
      simp only [List.length_cons, Nat.add_lt_add_iff_right] at hi
      cases a with
      | none =>
        simpa [List.set, List.filterMap_cons] using ih j hi hnone
      | some b =>
        simp only [List.set, List.filterMap_cons, id]
        calc b :: (t.set j (some v)).filterMap id
            ~ b :: (v :: t.filterMap id) := (ih j hi hnone).cons b
          _ ~ v :: b :: t.filterMap id := List.Perm.swap v b _

open List in
theorem scatterTopology_perm :
    ∀ (ps : List (Nat × Nat)) (slots : List (Option Nat)),
      (∀ p ∈ ps, p.1 < slots.length) →
      (ps.map Prod.fst).Nodup →
      (∀ p ∈ ps, slots[p.1]? = some none) →
      ∃ topo, scatterTopology slots ps = some topo ∧
        topo.length = slots.length ∧
        topo.filterMap id ~ (ps.map Prod.snd) ++ slots.filterMap id := by
  intro ps
  induction ps with
  | nil =>
    intro slots _ _ _
    exact ⟨slots, rfl, rfl, by simp⟩
  | cons p rest ih =>
    obtain ⟨pos, nid⟩ := p
    intro slots hlt hnd hnone
    have hposlt : pos < slots.length := hlt (pos, nid) (List.mem_cons_self _ _)
    have hpos_none : slots[pos]? = some none :=
      hnone (pos, nid) (List.mem_cons_self _ _)
    rw [List.map_cons] at hnd
    obtain ⟨hhead, htailnd⟩ := List.nodup_cons.mp hnd
    obtain ⟨topo, hrun, hlen, hperm⟩ := ih (slots.set pos (some nid))
      (fun q hq => by
        rw [List.length_set]
        exact hlt q (List.mem_cons_of_mem _ hq))
      htailnd
      (fun q hq => by
        have hne : pos ≠ q.1 := fun hcontra => hhead (hcontra ▸
          List.mem_map.mpr ⟨q, hq, rfl⟩)
        rw [List.getElem?_set_ne hne]
        exact hnone q (List.mem_cons_of_mem _ hq))
    refine ⟨topo, ?_, by rw [hlen, List.length_set], ?_⟩
    · simpa [scatterTopology, setAt, hposlt] using hrun
    · calc topo.filterMap id
          ~ rest.map Prod.snd ++ (slots.set pos (some nid)).filterMap id := hperm
        _ ~ rest.map Prod.snd ++ (nid :: slots.filterMap id) :=
          (filterMap_id_set_none slots pos nid hposlt hpos_none).append_left _
        _ ~ nid :: (rest.map Prod.snd ++ slots.filterMap id) := List.perm_middle
        _ = ((pos, nid) :: rest).map Prod.snd ++ slots.filterMap id := rfl

theorem filterMap_id_full {α : Type} :
    ∀ l : List (Option α), (l.filterMap id).length = l.length →
      ∀ x ∈ l, x.isSome := by
  intro l
  induction l with
  | nil => simp
  | cons a t ih =>
    intro h x hx
    cases a with
    | none =>
      exfalso
      rw [List.filterMap_cons_none (by rfl), List.length_cons] at h
      have := List.length_filterMap_le id t
      omega
    | some b =>
      rw [List.filterMap_cons_some (f := id) (b := b) (by rfl),
        List.length_cons, List.length_cons, Nat.add_right_cancel_iff] at h
      rcases List.mem_cons.mp hx with rfl | hx2
      · rfl
      · exact ih h x hx2

theorem orderedTopology_error (getOrdering : Nat → List Char) :
    ∀ (nodes : List Nat) (slots : List (Option Nat)),
      (∃ nid ∈ nodes, atoi (getOrdering nid) = none) →
      ∃ e, orderedTopology getOrdering slots nodes = .error e := by
  intro nodes
  induction nodes with
  | nil => simp
  | cons h rest ih =>
    intro slots hex
    obtain ⟨nid, hmem, hnone⟩ := hex
    rcases List.mem_cons.mp hmem with rfl | hmem2
    · exact ⟨"Could not parse ordering info from node",
        by simp [orderedTopology, hnone]⟩
    · cases hod : atoi (getOrdering h) with
      | none =>
        exact ⟨"Could not parse ordering info from node",
          by simp [orderedTopology, hod]⟩
      | some pos =>
        by_cases hb : pos < 0 ∨ slots.length ≤ pos.toNat
        · exact ⟨"index out of range", by simp [orderedTopology, hod, hb]⟩
        · obtain ⟨e, he⟩ := ih (slots.set pos.toNat (some h))
            ⟨nid, hmem2, hnone⟩
          exact ⟨e, by simp [orderedTopology, hod, hb, he]⟩

theorem orderedTopology_places (getOrdering : Nat → List Char) :
    ∀ (nodes : List Nat) (slots : List (Option Nat)),
      nodes.Pairwise (fun a b => atoi (getOrdering a) ≠ atoi (getOrdering b)) →
      (∀ nid ∈ nodes, ∃ pos : Int, atoi (getOrdering nid) = some pos ∧
        0 ≤ pos ∧ pos.toNat < slots.length) →
      ∃ topo, orderedTopology getOrdering slots nodes = .ok topo ∧
        topo.length = slots.length ∧
        (∀ nid pos, nid ∈ nodes → atoi (getOrdering nid) = some pos →
          topo[pos.toNat]? = some (some nid)) ∧
        (∀ j, (∀ nid ∈ nodes, ∀ pos : Int, atoi (getOrdering nid) = some pos →
          pos.toNat ≠ j) → topo[j]? = slots[j]?) := by
  intro nodes
  induction nodes with
  | nil =>
    intro slots _ _
    exact ⟨slots, rfl, rfl, by simp, fun _ _ => rfl⟩
  | cons h rest ih =>
    intro slots hpair hrange
    obtain ⟨pos, hpos, hposnn, hposlt⟩ := hrange h (List.mem_cons_self _ _)
    obtain ⟨hhead, hpairtail⟩ := List.pairwise_cons.mp hpair
    have hb : ¬ (pos < 0 ∨ slots.length ≤ pos.toNat) := by omega
    obtain ⟨topo, hok, hlen, hplaces, hframe⟩ :=
      ih (slots.set pos.toNat (some h)) hpairtail
        (fun nid hmem => by
          obtain ⟨p2, hp2, hp2nn, hp2lt⟩ := hrange nid (List.mem_cons_of_mem _ hmem)
          exact ⟨p2, hp2, hp2nn, by rwa [List.length_set]⟩)
    have havoid : ∀ nid ∈ rest, ∀ p2 : Int,
        atoi (getOrdering nid) = some p2 → p2.toNat ≠ pos.toNat := by
      intro nid hmem p2 hp2
      obtain ⟨p3, hp3, hp3nn, -⟩ := hrange nid (List.mem_cons_of_mem _ hmem)
      rw [hp2] at hp3
      cases hp3
      have hne := hhead nid hmem
      rw [hpos, hp2] at hne
      have : pos ≠ p2 := fun hc => hne (by rw [hc])
      omega
    refine ⟨topo, ?_, by rw [hlen, List.length_set], ?_, ?_⟩
    · simp [orderedTopology, hpos, hb, hok]
    · intro nid p2 hmem hp2
      rcases List.mem_cons.mp hmem with rfl | hmem2
      · rw [hpos] at hp2
        cases hp2
        rw [hframe pos.toNat (fun nid2 hmem2 p3 hp3 => havoid nid2 hmem2 p3 hp3)]
        exact List.getElem?_set_self hposlt
      · exact hplaces nid p2 hmem2 hp2
    · intro j hj
      rw [hframe j (fun nid2 hmem2 p3 hp3 =>
        hj nid2 (List.mem_cons_of_mem _ hmem2) p3 hp3)]
      exact List.getElem?_set_ne
        (hj h (List.mem_cons_self _ _) pos hpos)

/-- C6 (amended): when RandomOrdering is true and the shuffle output is
a permutation of [0..TeamSize), createSimpleRound succeeds and its
topology is a permutation of the drawn nodes with every slot filled;
when RandomOrdering is false, it fails if any drawn node's ordering tag
is non-numeric, and when all tags are numeric, pairwise distinct and in
range, it places each node at the slot its tag names.  Colliding tags
are NOT detected: the later node silently overwrites the slot (see the
counterexample). -/
theorem createSimpleRound_correct (params : Params) (roundID : Nat)
    (nodes : List Nat) (randomIndex : List Nat) (getOrdering : Nat → List Char) :
    (params.randomOrdering = true → nodes.length = params.teamSize →
      List.Perm randomIndex (List.range params.teamSize) →
      ∃ pr, createSimpleRound params roundID nodes randomIndex getOrdering =
          .ok pr ∧
        List.Perm (pr.topology.filterMap id) nodes ∧
        (∀ x ∈ pr.topology, x.isSome) ∧
        pr.topology.length = params.teamSize ∧
        pr.id = roundID ∧ pr.batchSize = params.batchSize ∧
        pr.nodeStateList = nodes) ∧
    (params.randomOrdering = false →
      (∃ nid ∈ nodes, atoi (getOrdering nid) = none) →
      ∃ e, createSimpleRound params roundID nodes randomIndex getOrdering =
        .error e) ∧
    (params.randomOrdering = false →
      nodes.Pairwise (fun a b => atoi (getOrdering a) ≠ atoi (getOrdering b)) →
      (∀ nid ∈ nodes, ∃ pos : Int, atoi (getOrdering nid) = some pos ∧
        0 ≤ pos ∧ pos.toNat < params.teamSize) →
      ∃ pr, createSimpleRound params roundID nodes randomIndex getOrdering =
          .ok pr ∧
        (∀ nid pos, nid ∈ nodes → atoi (getOrdering nid) = some pos →
          pr.topology[pos.toNat]? = some (some nid)) ∧
        pr.id = roundID ∧ pr.batchSize = params.batchSize) := by
  refine ⟨?_, ?_, ?_⟩
  · intro hrand hlen hperm
    have hlenri : randomIndex.length = params.teamSize := by
      simpa using hperm.length_eq
    obtain ⟨topo, hrun, htlen, htperm⟩ := scatterTopology_perm
      (randomIndex.zip nodes) (List.replicate params.teamSize none)
      (fun p hp => by
        rw [List.length_replicate]
        have := List.of_mem_zip hp
        have hmem := this.1
        have := hperm.mem_iff.mp hmem
        exact List.mem_range.mp this)
      (by
        rw [List.map_fst_zip _ _ (by omega)]
        exact hperm.nodup_iff.mpr (List.nodup_range _))
      (fun p hp => by
        rw [List.getElem?_replicate, if_pos]
        have := List.of_mem_zip hp
        exact List.mem_range.mp (hperm.mem_iff.mp this.1))
    have hsnd : (randomIndex.zip nodes).map Prod.snd = nodes :=
      List.map_snd_zip _ _ (by omega)
    have hrepl : (List.replicate params.teamSize (none : Option Nat)).filterMap id
        = [] := by
      simp
    refine ⟨⟨topo, roundID, params.batchSize, nodes⟩, ?_, ?_, ?_, ?_, rfl, rfl, rfl⟩
    · simp [createSimpleRound, hrand, hrun]
    · simpa [hsnd, hrepl] using htperm
    · refine filterMap_id_full topo ?_
      have h1 : (topo.filterMap id).length = nodes.length := by
        have := htperm.length_eq
        simpa [hsnd, hrepl] using this
      rw [h1, hlen, htlen, List.length_replicate]
    · simpa using htlen
  · intro hrand hex
    obtain ⟨e, he⟩ := orderedTopology_error getOrdering nodes
      (List.replicate params.teamSize none) hex
    exact ⟨e, by simp [createSimpleRound, hrand, he]⟩
  · intro hrand hpair hrange
    obtain ⟨topo, hok, hlen, hplaces, -⟩ := orderedTopology_places getOrdering
      nodes (List.replicate params.teamSize none) hpair
      (fun nid hmem => by
        obtain ⟨p2, hp2, hp2nn, hp2lt⟩ := hrange nid hmem
        exact ⟨p2, hp2, hp2nn, by rwa [List.length_replicate]⟩)
    exact ⟨⟨topo, roundID, params.batchSize, nodes⟩,
      by simp [createSimpleRound, hrand, hok], hplaces, rfl, rfl⟩

/-- The ordering oracle of the C6 counterexample: every node's tag is
the digit 0. -/
def exOrdering : Nat → List Char := fun _ => ['0']

/-- C6 counterexample: with RandomOrdering false and two drawn nodes
whose ordering tags collide (both parse to 0), createSimpleRound does
NOT fail: it returns a topology in which node 9 has overwritten node 7
at position 0 and position 1 was never written, refuting the claim that
colliding tags produce a BadOrdering error. -/
theorem createSimpleRound_collision_counterexample :
    atoi (exOrdering 7) = atoi (exOrdering 9) ∧
    createSimpleRound ⟨2, 4, false⟩ 1 [7, 9] [] exOrdering =
      .ok ⟨[some 9, none], 1, 4, [7, 9]⟩ :=
  ⟨rfl, rfl⟩

/-- Witness for C6: a concrete two-node draw.  With random ordering and
the shuffle [1, 0], the topology is a permutation of the drawn nodes;
with tag ordering and tags 0 and 1, each node lands at its tag slot. -/
theorem createSimpleRound_correct_witness :
    (∃ pr, createSimpleRound ⟨2, 4, true⟩ 1 [7, 9] [1, 0] exOrdering =
        .ok pr ∧ List.Perm (pr.topology.filterMap id) [7, 9]) ∧
    (∃ pr, createSimpleRound ⟨2, 4, false⟩ 1 [7, 9] []
        (fun nid => if nid = 7 then ['0'] else ['1']) = .ok pr ∧
      pr.topology[(0 : Nat)]? = some (some 7) ∧
      pr.topology[(1 : Nat)]? = some (some 9)) := by
  constructor
  · obtain ⟨pr, hok, hperm, -⟩ := (createSimpleRound_correct ⟨2, 4, true⟩ 1
      [7, 9] [1, 0] exOrdering).1 rfl rfl (by decide)
    exact ⟨pr, hok, hperm⟩
  · obtain ⟨pr, hok, hplaces, -⟩ := (createSimpleRound_correct ⟨2, 4, false⟩ 1
      [7, 9] [] (fun nid => if nid = 7 then ['0'] else ['1'])).2.2 rfl
      (by simp; decide) (by decide)
    refine ⟨pr, hok, ?_, ?_⟩
    · have := hplaces 7 0 (by simp) (by decide)
      simpa using this
    · have := hplaces 9 1 (by simp) (by decide)
      simpa using this

/-- A NodeMetric row as inserted by the metric tracker: node id, the
interval bounds and the ping count of the interval. -/
structure NodeMetric where
  nodeId : Nat
  startTime : Int
  endTime : Int
  numPings : Nat
deriving DecidableEq, Repr

/-- Result of one successful metric-tracker tick: the node records with
reset poll counters, the toPrune list and the inserted metric rows. -/
structure TrackTickResult where
  nodes : List Node.State
  toPrune : List Nat
  metrics : List NodeMetric
deriving DecidableEq, Repr

/-- The per-tick node loop of TrackNodeMetrics (cmd/nodeMetricTracker.go):
for each node state, atomically read-and-reset the poll counter, build
the NodeMetric, add the node to toPrune when it has zero pings (or when
active-only scheduling is on and the node is not active), and insert the
metric unless active-only scheduling excludes the node.  The database is
the insertErr oracle; a failed insert is FATAL in the source
(jww.FATAL.Panicf), modelled as an error that aborts the tick. -/
def TrackNodeMetricsLoop (onlyScheduleActive : Bool) (active : Nat → Bool)
    (insertErr : Nat → Option String) (startTime now : Int) :
    List Node.State → Except String TrackTickResult
  | [] => .ok ⟨[], [], []⟩
  | n :: rest =>
    let numPings := n.numPolls
    let n2 : Node.State := { n with numPolls := 0 }
    let doInsert := !onlyScheduleActive || active n.id
    let pruneThis := numPings == 0 || (onlyScheduleActive && !active n.id)
    match (if doInsert then insertErr n.id else none) with
    | some e => .error ("Unable to store node metric: " ++ e)
    | none =>
      match TrackNodeMetricsLoop onlyScheduleActive active insertErr
        startTime now rest with
      | .error e => .error e
      | .ok res =>
        .ok ⟨n2 :: res.nodes,
          (if pruneThis then [n.id] else []) ++ res.toPrune,
          (if doInsert then [(⟨n.id, startTime, now, numPings⟩ : NodeMetric)]
            else []) ++ res.metrics⟩

/-- C8 (amended): on a tick in which every attempted metric insert
succeeds, the tracker resets every node's poll counter, inserts a
NodeMetric exactly for the nodes not excluded by active-only scheduling,
and puts every node with zero pings on the toPrune list; but a storage
failure on any attempted insert is FATAL — the tick aborts with the
panic message — rather than being logged and dropped. -/
theorem trackNodeMetrics_tick (onlyScheduleActive : Bool) (active : Nat → Bool)
    (insertErr : Nat → Option String) (startTime now : Int) :
    (∀ nodes : List Node.State,
      (∀ n ∈ nodes, (!onlyScheduleActive || active n.id) = true →
        insertErr n.id = none) →
      ∃ res, TrackNodeMetricsLoop onlyScheduleActive active insertErr
          startTime now nodes = .ok res ∧
        res.nodes = nodes.map (fun n => { n with numPolls := 0 }) ∧
        res.metrics = (nodes.filter
            (fun n => !onlyScheduleActive || active n.id)).map
          (fun n => ⟨n.id, startTime, now, n.numPolls⟩) ∧
        res.toPrune = (nodes.filter
            (fun n => n.numPolls == 0 ||
              (onlyScheduleActive && !active n.id))).map (fun n => n.id) ∧
        (∀ n ∈ nodes, n.numPolls = 0 → n.id ∈ res.toPrune)) ∧
    (∀ (nodes : List Node.State) (n : Node.State), n ∈ nodes →
      (!onlyScheduleActive || active n.id) = true → insertErr n.id ≠ none →
      ∃ e, TrackNodeMetricsLoop onlyScheduleActive active insertErr
        startTime now nodes = .error e) := by
  constructor
  · intro nodes
    induction nodes with
    | nil => exact fun _ => ⟨⟨[], [], []⟩, rfl, rfl, rfl, rfl, by simp⟩
    | cons n rest ih =>
      intro hins
      obtain ⟨res, hok, hnodes, hmetrics, hprune, hzero⟩ :=
        ih (fun m hm => hins m (List.mem_cons_of_mem _ hm))
      by_cases hdo : (!onlyScheduleActive || active n.id) = true
      · have hnone : insertErr n.id = none := hins n (List.mem_cons_self _ _) hdo
        refine ⟨⟨{ n with numPolls := 0 } :: res.nodes,
          (if (n.numPolls == 0 || (onlyScheduleActive && !active n.id)) then
            [n.id] else []) ++ res.toPrune,
          ⟨n.id, startTime, now, n.numPolls⟩ :: res.metrics⟩, ?_, ?_, ?_, ?_, ?_⟩
        · simp [TrackNodeMetricsLoop, hdo, hnone, hok]
        · simp [hnodes]
        · simp [hmetrics, hdo]
        · by_cases hz : (n.numPolls == 0 ||
            (onlyScheduleActive && !active n.id)) = true <;>
            simp [hprune, hz]
        · intro m hm hmz
          rcases List.mem_cons.mp hm with rfl | hm2
          · simp [hmz]
          · by_cases hz : (n.numPolls == 0 ||
              (onlyScheduleActive && !active n.id)) = true <;>
              simp [hz, hzero m hm2 hmz]
      · have hdof : (!onlyScheduleActive || active n.id) = false :=
          Bool.eq_false_iff.mpr hdo
        obtain ⟨h1, h2⟩ := Bool.or_eq_false_iff.mp hdof
        have h1b : onlyScheduleActive = true := by simpa using h1
        have hz : (n.numPolls == 0 ||
            (onlyScheduleActive && !active n.id)) = true := by
          simp [h1b, h2]
        refine ⟨⟨{ n with numPolls := 0 } :: res.nodes,
          [n.id] ++ res.toPrune, res.metrics⟩, ?_, ?_, ?_, ?_, ?_⟩
        · simp [TrackNodeMetricsLoop, hdof, hok, hz]
        · simp [hnodes]
        · simp [hmetrics, hdof]
        · simp [hprune, hz]
        · intro m hm hmz
          rcases List.mem_cons.mp hm with rfl | hm2
          · simp
          · simp [hzero m hm2 hmz]
  · intro nodes
    induction nodes with
    | nil => intro n hn; exact absurd hn (List.not_mem_nil n)
    | cons h rest ih =>
      intro n hn hdo hfail
      rcases List.mem_cons.mp hn with rfl | hn2
      · cases hie : insertErr n.id with
        | none => exact absurd hie hfail
        | some e =>
          exact ⟨"Unable to store node metric: " ++ e,
            by simp [TrackNodeMetricsLoop, hdo, hie]⟩
      · by_cases hdoh : (!onlyScheduleActive || active h.id) = true
        · cases hie : insertErr h.id with
          | none =>
            obtain ⟨e, he⟩ := ih n hn2 hdo hfail
            exact ⟨e, by simp [TrackNodeMetricsLoop, hdoh, hie, he]⟩
          | some e =>
            exact ⟨"Unable to store node metric: " ++ e,
              by simp [TrackNodeMetricsLoop, hdoh, hie]⟩
        · obtain ⟨e, he⟩ := ih n hn2 hdo hfail
          exact ⟨e, by simp [TrackNodeMetricsLoop, hdoh, he]⟩

/-- A concrete node with five pings in the interval. -/
def exNodePinged : Node.State := ⟨5, .waiting, none, .active, 5, .portSuccessful, []⟩

/-- A concrete node with zero pings in the interval. -/
def exNodeZero : Node.State := ⟨6, .waiting, none, .active, 0, .portSuccessful, []⟩

/-- C8 counterexample: a tick over one node whose metric insert fails in
storage aborts fatally with the panic message — the failure is not
logged-and-dropped as the claim states. -/
theorem trackNodeMetrics_fatal_counterexample :
    TrackNodeMetricsLoop false (fun _ => false) (fun _ => some "db down") 0 1
      [exNodePinged] = .error "Unable to store node metric: db down" := rfl

/-- Witness for C8: on a two-node tick with a healthy database, exactly
the zero-ping node is put on toPrune and both metrics are inserted; on a
one-node tick with a failing database, the tick aborts. -/
theorem trackNodeMetrics_tick_witness :
    (∃ res, TrackNodeMetricsLoop false (fun _ => true) (fun _ => none) 0 1
        [exNodePinged, exNodeZero] = .ok res ∧
      res.toPrune = [6] ∧ res.metrics.length = 2) ∧
    (∃ e, TrackNodeMetricsLoop false (fun _ => true) (fun _ => some "db down")
      0 1 [exNodePinged] = .error e) := by
  constructor
  · obtain ⟨res, hok, hnodes, hmetrics, hprune, hzero⟩ :=
      (trackNodeMetrics_tick false (fun _ => true) (fun _ => none) 0 1).1
        [exNodePinged, exNodeZero] (fun n _ _ => rfl)
    refine ⟨res, hok, ?_, ?_⟩
    · rw [hprune]; rfl
    · rw [hmetrics]; rfl
  · exact (trackNodeMetrics_tick false (fun _ => true)
      (fun _ => some "db down") 0 1).2 [exNodePinged] exNodePinged
      (by simp) (by rfl) (by simp)
